import Mathlib

/-!
# Verification of the xhub-agent core against its specification

Shallow embedding of the Go sources of the `xhub-agent` telemetry agent:
the report client (`internal/report`), the configuration defaults
(`internal/config`), the subscription extractor (`internal/subscription`),
the panel authenticator (`internal/auth`) and the monitor-to-wire
conversion (`ConvertToProto`).  Pure logic is translated function by
function; I/O boundaries (HTTP responses, JSON decoding results) appear
as explicit input data.
-/

/-- Go `strings.Contains s pat`: `pat` occurs as a contiguous substring
of `s`.  Decidable via the substring relation on the character lists. -/
def containsStr (s pat : String) : Bool :=
  decide (pat.data <:+: s.data)

namespace Report

/-- Embeds `shouldUseTLS` from `internal/report`: insecure only when the
address mentions `localhost` or `127.0.0.1`; TLS forced otherwise. -/
def shouldUseTLS (serverAddr : String) : Bool :=
  if containsStr serverAddr "localhost" || containsStr serverAddr "127.0.0.1" then
    false
  else
    true

/-- Embeds the report package's `isLocalServer` (substring check, unlike
the config package's exact comparison). -/
def isLocalServer (serverAddr : String) : Bool :=
  containsStr serverAddr "localhost" || containsStr serverAddr "127.0.0.1"

/-- State of a `ReportClient`.  `conn = true` models a non-nil
`*grpc.ClientConn` (the `client` stub is non-nil exactly when `conn` is,
so one flag covers both). -/
structure ReportClient where
  serverAddr : String
  useTLS : Bool
  conn : Bool
  isConnected : Bool
  lastErrorState : String
  hasLoggedError : Bool
  wasSuccessful : Bool
deriving Repr, DecidableEq

/-- Embeds `NewReportClient` (the address-format warnings only log). -/
def NewReportClient (serverAddr : String) : ReportClient :=
  { serverAddr := serverAddr
    useTLS := shouldUseTLS serverAddr
    conn := false
    isConnected := false
    lastErrorState := ""
    hasLoggedError := false
    wasSuccessful := true }

/-- Embeds `Close`: nils out the connection and stub when present,
no-op otherwise. -/
def Close (r : ReportClient) : ReportClient :=
  if r.conn then { r with conn := false, isConnected := false } else r

/-- Embeds `SetTLS`: disabling TLS for a non-local server is refused
(state untouched); an accepted call stores the flag and closes any open
connection. -/
def SetTLS (r : ReportClient) (useTLS : Bool) : ReportClient :=
  if !useTLS && !isLocalServer r.serverAddr then
    r
  else
    let r1 := { r with useTLS := useTLS }
    if r1.conn then Close r1 else r1

/-- Embeds `IsTLSEnabled`. -/
def IsTLSEnabled (r : ReportClient) : Bool :=
  r.useTLS

end Report

open Report

/-- Helper: on a non-local target an accepted `SetTLS` can only be
`SetTLS true`, so the flag and address are preserved by every call. -/
theorem setTLS_preserves_nonlocal (r : Report.ReportClient) (b : Bool)
    (haddr : Report.isLocalServer r.serverAddr = false) (htls : r.useTLS = true) :
    (Report.SetTLS r b).serverAddr = r.serverAddr ∧ (Report.SetTLS r b).useTLS = true := by
  cases b with
  | false =>
    simp [Report.SetTLS, haddr, htls]
  | true =>
    simp only [Report.SetTLS, Bool.not_true, Bool.false_and, Bool.false_eq_true, if_false]
    by_cases hc : r.conn
    · simp [hc, Report.Close]
    · simp [hc]

/-- C1: on a non-loopback target, `SetTLS false` is a complete no-op, the
freshly built client has TLS on, and no sequence of `SetTLS` calls ever
turns the TLS flag off. -/
theorem setTLS_nonlocal_invariant (addr : String)
    (h : Report.isLocalServer addr = false) :
    (∀ r : Report.ReportClient, r.serverAddr = addr → Report.SetTLS r false = r)
    ∧ Report.IsTLSEnabled (Report.NewReportClient addr) = true
    ∧ ∀ bs : List Bool,
        Report.IsTLSEnabled (bs.foldl Report.SetTLS (Report.NewReportClient addr)) = true := by
  refine ⟨?_, ?_, ?_⟩
  · intro r hr
    simp [Report.SetTLS, hr, h]
  · simp [Report.IsTLSEnabled, Report.NewReportClient, Report.shouldUseTLS,
      Report.isLocalServer] at h ⊢
    simp [h.1, h.2]
  · intro bs
    have hinit : (Report.NewReportClient addr).serverAddr = addr ∧
        (Report.NewReportClient addr).useTLS = true := by
      constructor
      · rfl
      · simp [Report.NewReportClient, Report.shouldUseTLS, Report.isLocalServer] at h ⊢
        simp [h.1, h.2]
    have main : ∀ (l : List Bool) (r : Report.ReportClient),
        r.serverAddr = addr → r.useTLS = true →
        (l.foldl Report.SetTLS r).useTLS = true := by
      intro l
      induction l with
      | nil => intro r _ htls; simpa using htls
      | cons b t ih =>
        intro r hr htls
        have hlocal : Report.isLocalServer r.serverAddr = false := by rw [hr]; exact h
        have step := setTLS_preserves_nonlocal r b hlocal htls
        simp only [List.foldl_cons]
        exact ih _ (by rw [step.1, hr]) step.2
    exact main bs _ hinit.1 hinit.2

/-- Witness for C1 at the concrete non-loopback address `example.com:443`. -/
theorem setTLS_nonlocal_invariant_witness :
    Report.SetTLS (Report.NewReportClient "example.com:443") false
        = Report.NewReportClient "example.com:443"
    ∧ Report.IsTLSEnabled
        ([false, true, false].foldl Report.SetTLS
          (Report.NewReportClient "example.com:443")) = true := by
  have h : Report.isLocalServer "example.com:443" = false := by decide
  have main := setTLS_nonlocal_invariant "example.com:443" h
  exact ⟨main.1 _ rfl, main.2.2 [false, true, false]⟩

/-- C9: any `SetTLS` call that passes the security check while a
connection is open tears the connection down and clears the handle, even
when the requested value equals the one already stored. -/
theorem setTLS_accepted_closes_connection (r : Report.ReportClient) (b : Bool)
    (hconn : r.conn = true)
    (hacc : b = true ∨ Report.isLocalServer r.serverAddr = true) :
    (Report.SetTLS r b).conn = false ∧ (Report.SetTLS r b).isConnected = false
    ∧ (Report.SetTLS r b).useTLS = b := by
  have hcond : (!b && !Report.isLocalServer r.serverAddr) = false := by
    rcases hacc with h | h <;> simp [h]
  simp [Report.SetTLS, hcond, hconn, Report.Close]

/-- Witness for C9: `SetTLS true` on a connected client whose flag is
already `true` still closes the connection. -/
theorem setTLS_accepted_closes_connection_witness :
    (Report.SetTLS ⟨"example.com:443", true, true, true, "", false, true⟩ true).conn = false
    ∧ (Report.SetTLS ⟨"example.com:443", true, true, true, "", false, true⟩ true).isConnected
        = false
    ∧ (Report.SetTLS ⟨"example.com:443", true, true, true, "", false, true⟩ true).useTLS
        = true :=
  setTLS_accepted_closes_connection _ true rfl (Or.inl rfl)

namespace Report

/-- Embeds `shouldLogError`: the boolean says whether the failure is
logged in full; the record is the updated dedup state. -/
def shouldLogError (r : ReportClient) (errorKey : String) : Bool × ReportClient :=
  if r.lastErrorState ≠ errorKey then
    (true, { r with lastErrorState := errorKey, hasLoggedError := true,
                    wasSuccessful := false })
  else if r.hasLoggedError = false then
    (true, { r with hasLoggedError := true, wasSuccessful := false })
  else
    (false, r)

/-- Embeds `markSuccess`: the boolean says whether the one-time recovery
notice is emitted; the record is the reset state. -/
def markSuccess (r : ReportClient) : Bool × ReportClient :=
  (!r.wasSuccessful,
   { r with lastErrorState := "", hasLoggedError := false, wasSuccessful := true })

/-- One observable outcome of a send attempt, as seen in the log. -/
inductive LogAction where
  | fullLog (key : String)
  | suppressed (key : String)
  | recovery
  | silent
deriving Repr, DecidableEq

/-- A send attempt either fails with a classified error key (routed
through `shouldLogError`) or succeeds (routed through `markSuccess`). -/
inductive ReportEvent where
  | fail (key : String)
  | success
deriving Repr, DecidableEq

/-- Applies one event to the dedup state, recording the log outcome. -/
def stepEvent (r : ReportClient) : ReportEvent → LogAction × ReportClient
  | .fail key =>
      let p := shouldLogError r key
      (if p.1 then .fullLog key else .suppressed key, p.2)
  | .success =>
      let p := markSuccess r
      (if p.1 then .recovery else .silent, p.2)

/-- Runs a sequence of events, collecting the log outcomes. -/
def runEvents (r : ReportClient) : List ReportEvent → List LogAction
  | [] => []
  | e :: rest =>
      let p := stepEvent r e
      p.1 :: runEvents p.2 rest

end Report

/-- After any failure the dedup state records the key as already logged. -/
theorem shouldLogError_state (r : Report.ReportClient) (k : String) :
    (Report.shouldLogError r k).2.lastErrorState = k
    ∧ (Report.shouldLogError r k).2.hasLoggedError = true := by
  by_cases h1 : r.lastErrorState = k
  · by_cases h2 : r.hasLoggedError <;> simp [Report.shouldLogError, h1, h2]
  · simp [Report.shouldLogError, h1]

/-- A failure whose key was already recorded and logged is suppressed and
leaves the state untouched. -/
theorem shouldLogError_suppressed (r : Report.ReportClient) (k : String)
    (h1 : r.lastErrorState = k) (h2 : r.hasLoggedError = true) :
    Report.shouldLogError r k = (false, r) := by
  simp [Report.shouldLogError, h1, h2]

/-- C2: error-log deduplication.  After a failure with key `k`, any run of
further `k`-failures is entirely suppressed; a failure whose key differs
from the recorded one is always logged in full; a success after a failure
emits the recovery notice and resets the state, a success after a success
stays silent; and the spec's three-failures-then-success scenario produces
exactly one full log, two suppressions, one recovery notice. -/
theorem errorDedup_transitions :
    (∀ (r : Report.ReportClient) (k : String) (n : Nat),
        Report.runEvents (Report.stepEvent r (.fail k)).2
            (List.replicate n (.fail k))
          = List.replicate n (.suppressed k))
    ∧ (∀ (r : Report.ReportClient) (k : String),
        r.lastErrorState ≠ k → (Report.shouldLogError r k).1 = true)
    ∧ (∀ (r : Report.ReportClient) (k : String),
        (r.hasLoggedError = true → r.wasSuccessful = false) →
        (Report.stepEvent r (.fail k)).2.wasSuccessful = false)
    ∧ (∀ r : Report.ReportClient, r.wasSuccessful = false →
        (Report.stepEvent r .success).1 = .recovery
        ∧ (Report.stepEvent r .success).2.lastErrorState = ""
        ∧ (Report.stepEvent r .success).2.hasLoggedError = false
        ∧ (Report.stepEvent r .success).2.wasSuccessful = true)
    ∧ (∀ r : Report.ReportClient, r.wasSuccessful = true →
        (Report.stepEvent r .success).1 = .silent)
    ∧ Report.runEvents (Report.NewReportClient "example.com:443")
        [.fail "send_x", .fail "send_x", .fail "send_x", .success, .success]
        = [.fullLog "send_x", .suppressed "send_x", .suppressed "send_x",
           .recovery, .silent] := by
  refine ⟨?_, ?_, ?_, ?_, ?_, ?_⟩
  · intro r k n
    have hs := shouldLogError_state r k
    have hstep : Report.stepEvent (Report.shouldLogError r k).2 (.fail k)
        = (.suppressed k, (Report.shouldLogError r k).2) := by
      simp [Report.stepEvent, shouldLogError_suppressed _ k hs.1 hs.2]
    have main : ∀ n : Nat,
        Report.runEvents (Report.shouldLogError r k).2
            (List.replicate n (.fail k))
          = List.replicate n (.suppressed k) := by
      intro n
      induction n with
      | zero => simp [Report.runEvents]
      | succ m ih =>
        rw [List.replicate_succ, Report.runEvents, hstep, ih, List.replicate_succ]
    exact main n
  · intro r k h
    simp [Report.shouldLogError, h]
  · intro r k hinv
    by_cases h1 : r.lastErrorState = k
    · by_cases h2 : r.hasLoggedError
      · simpa [Report.stepEvent, Report.shouldLogError, h1, h2] using hinv h2
      · simp [Report.stepEvent, Report.shouldLogError, h1, h2]
    · simp [Report.stepEvent, Report.shouldLogError, h1]
  · intro r h
    simp [Report.stepEvent, Report.markSuccess, h]
  · intro r h
    simp [Report.stepEvent, Report.markSuccess, h]
  · decide

/-- Witness for C2 at concrete states: an unseen key is logged in full,
an established failure key is suppressed for two more rounds, a success
after failure recovers, a success after success is silent. -/
theorem errorDedup_transitions_witness :
    (Report.shouldLogError (Report.NewReportClient "example.com:443") "send_x").1 = true
    ∧ Report.runEvents
        (Report.stepEvent (Report.NewReportClient "example.com:443") (.fail "send_x")).2
        (List.replicate 2 (.fail "send_x"))
        = List.replicate 2 (.suppressed "send_x")
    ∧ (Report.stepEvent ⟨"example.com:443", true, false, false, "send_x", true, false⟩
        .success).1 = .recovery
    ∧ (Report.stepEvent (Report.NewReportClient "example.com:443") .success).1
        = .silent := by
  refine ⟨?_, ?_, ?_, ?_⟩
  · exact errorDedup_transitions.2.1 _ _ (by decide)
  · exact errorDedup_transitions.1 _ _ 2
  · exact (errorDedup_transitions.2.2.2.1 _ rfl).1
  · exact errorDedup_transitions.2.2.2.2.1 _ rfl

namespace ConfigPkg

/-- The fields of the agent `Config` that the default-application logic
reads or writes (the remaining fields are only inspected by `Validate`,
which is out of scope here).  Go `int` is carried as `Int`. -/
structure Config where
  grpcServer : String
  grpcPort : Int
  xuiBaseURL : String
  pollInterval : Int
  logLevel : String
deriving Repr, DecidableEq

/-- Embeds the config package's `isLocalServer` (exact comparison with the
three loopback literals, including IPv6 `::1`). -/
def isLocalServer (c : Config) : Bool :=
  c.grpcServer == "localhost" || c.grpcServer == "127.0.0.1" || c.grpcServer == "::1"

/-- Embeds `applySmartGRPCPortDefaults`: loopback keeps a positive port or
falls back to 9090; every other server is forced onto port 443. -/
def applySmartGRPCPortDefaults (c : Config) : Config :=
  if isLocalServer c then
    if c.grpcPort ≤ 0 then { c with grpcPort := 9090 } else c
  else
    { c with grpcPort := 443 }

/-- Embeds `applyDefaults`: fill in base URL, poll interval and log level
when absent, then apply the smart gRPC port defaults. -/
def applyDefaults (c : Config) : Config :=
  let c1 := if c.xuiBaseURL = "" then { c with xuiBaseURL := "127.0.0.1" } else c
  let c2 := if c1.pollInterval = 0 then { c1 with pollInterval := 2 } else c1
  let c3 := if c2.logLevel = "" then { c2 with logLevel := "info" } else c2
  applySmartGRPCPortDefaults c3

end ConfigPkg

/-- The first three default-filling steps never touch the gRPC fields. -/
theorem applyDefaults_grpc_fields (c : ConfigPkg.Config) :
    ConfigPkg.applyDefaults c
      = ConfigPkg.applySmartGRPCPortDefaults
          { c with
            xuiBaseURL := if c.xuiBaseURL = "" then "127.0.0.1" else c.xuiBaseURL,
            pollInterval := if c.pollInterval = 0 then 2 else c.pollInterval,
            logLevel := if c.logLevel = "" then "info" else c.logLevel } := by
  unfold ConfigPkg.applyDefaults
  by_cases h1 : c.xuiBaseURL = "" <;> by_cases h2 : c.pollInterval = 0 <;>
    by_cases h3 : c.logLevel = "" <;> simp [h1, h2, h3]

/-- C3: after `applyDefaults`, a loopback server (`localhost`,
`127.0.0.1` or `::1`) gets port 9090 when the configured port was not
positive and keeps a positive configured port, while every other server
is put on port 443 regardless of the configured value. -/
theorem smart_grpc_port_defaults (c : ConfigPkg.Config) :
    ((c.grpcServer = "localhost" ∨ c.grpcServer = "127.0.0.1" ∨ c.grpcServer = "::1") →
      c.grpcPort ≤ 0 → (ConfigPkg.applyDefaults c).grpcPort = 9090)
    ∧ ((c.grpcServer = "localhost" ∨ c.grpcServer = "127.0.0.1" ∨ c.grpcServer = "::1") →
      0 < c.grpcPort → (ConfigPkg.applyDefaults c).grpcPort = c.grpcPort)
    ∧ (c.grpcServer ≠ "localhost" → c.grpcServer ≠ "127.0.0.1" → c.grpcServer ≠ "::1" →
      (ConfigPkg.applyDefaults c).grpcPort = 443) := by
  rw [applyDefaults_grpc_fields]
  refine ⟨?_, ?_, ?_⟩
  · intro hlocal hport
    have h : ConfigPkg.isLocalServer
        { c with
          xuiBaseURL := if c.xuiBaseURL = "" then "127.0.0.1" else c.xuiBaseURL,
          pollInterval := if c.pollInterval = 0 then 2 else c.pollInterval,
          logLevel := if c.logLevel = "" then "info" else c.logLevel } = true := by
      rcases hlocal with h | h | h <;> simp [ConfigPkg.isLocalServer, h]
    simp [ConfigPkg.applySmartGRPCPortDefaults, h, hport]
  · intro hlocal hport
    have h : ConfigPkg.isLocalServer
        { c with
          xuiBaseURL := if c.xuiBaseURL = "" then "127.0.0.1" else c.xuiBaseURL,
          pollInterval := if c.pollInterval = 0 then 2 else c.pollInterval,
          logLevel := if c.logLevel = "" then "info" else c.logLevel } = true := by
      rcases hlocal with h | h | h <;> simp [ConfigPkg.isLocalServer, h]
    simp [ConfigPkg.applySmartGRPCPortDefaults, h, Int.not_le.mpr hport]
  · intro h1 h2 h3
    have h : ConfigPkg.isLocalServer
        { c with
          xuiBaseURL := if c.xuiBaseURL = "" then "127.0.0.1" else c.xuiBaseURL,
          pollInterval := if c.pollInterval = 0 then 2 else c.pollInterval,
          logLevel := if c.logLevel = "" then "info" else c.logLevel } = false := by
      simp [ConfigPkg.isLocalServer, h1, h2, h3]
    simp [ConfigPkg.applySmartGRPCPortDefaults, h]

/-- Witness for C3 on three concrete configurations: loopback with unset
port, loopback with explicit port, and a remote host whose configured
port is overridden to 443. -/
theorem smart_grpc_port_defaults_witness :
    (ConfigPkg.applyDefaults ⟨"localhost", 0, "", 0, ""⟩).grpcPort = 9090
    ∧ (ConfigPkg.applyDefaults ⟨"127.0.0.1", 7070, "", 0, ""⟩).grpcPort = 7070
    ∧ (ConfigPkg.applyDefaults ⟨"collector.example.com", 9090, "", 0, ""⟩).grpcPort = 443 := by
  refine ⟨?_, ?_, ?_⟩
  · exact (smart_grpc_port_defaults _).1 (Or.inl rfl) (by decide)
  · exact (smart_grpc_port_defaults _).2.1 (Or.inr (Or.inl rfl)) (by decide)
  · exact (smart_grpc_port_defaults _).2.2 (by decide) (by decide) (by decide)

/-- C8: locality is decided by substring matching in the report package
(`shouldUseTLS` and its `isLocalServer`), but by exact comparison in the
config package: the IPv6 loopback `::1` counts as remote for the
reporter (TLS forced on, `SetTLS false` refused) yet local for the
config, while a remote host merely containing `localhost` counts as
local for the reporter (TLS defaults off and may be disabled) yet remote
for the config. -/
theorem locality_substring_vs_exact :
    (∀ addr : String, Report.isLocalServer addr = true ↔
        ("localhost".data <:+: addr.data ∨ "127.0.0.1".data <:+: addr.data))
    ∧ (∀ addr : String, Report.shouldUseTLS addr = !Report.isLocalServer addr)
    ∧ Report.isLocalServer "::1" = false
    ∧ Report.shouldUseTLS "::1" = true
    ∧ Report.SetTLS (Report.NewReportClient "::1") false = Report.NewReportClient "::1"
    ∧ Report.isLocalServer "localhost.example.com:443" = true
    ∧ Report.shouldUseTLS "localhost.example.com:443" = false
    ∧ (Report.SetTLS (Report.NewReportClient "localhost.example.com:443") true).useTLS
        = true
    ∧ (∀ c : ConfigPkg.Config, ConfigPkg.isLocalServer c = true ↔
        (c.grpcServer = "localhost" ∨ c.grpcServer = "127.0.0.1" ∨ c.grpcServer = "::1"))
    ∧ ConfigPkg.isLocalServer ⟨"::1", 0, "", 0, ""⟩ = true
    ∧ ConfigPkg.isLocalServer ⟨"localhost.example.com:443", 0, "", 0, ""⟩ = false := by
  refine ⟨?_, ?_, by decide, by decide, by decide, by decide, by decide, by decide,
    ?_, by decide, by decide⟩
  · intro addr
    simp [Report.isLocalServer, containsStr]
  · intro addr
    by_cases h : Report.isLocalServer addr
    · simp only [Report.isLocalServer] at h
      simp [Report.shouldUseTLS, Report.isLocalServer, h]
    · simp only [Report.isLocalServer, Bool.or_eq_true, not_or] at h
      simp only [Bool.not_eq_true] at h
      simp [Report.shouldUseTLS, Report.isLocalServer, h.1, h.2]
  · intro c
    simp [ConfigPkg.isLocalServer, or_assoc]

namespace Subscription

/-- Embeds `ClientInfo` from `internal/subscription`. -/
structure ClientInfo where
  email : String
  subID : String
  enable : Bool
deriving Repr, DecidableEq

/-- Embeds `ClientSettings`. -/
structure ClientSettings where
  clients : List ClientInfo
deriving Repr, DecidableEq

/-- Embeds `SubscriptionHeaders`. -/
structure SubscriptionHeaders where
  profileTitle : String
  profileUpdateInterval : String
  subscriptionUserinfo : String
deriving Repr, DecidableEq

/-- Embeds `SubscriptionData` (the extractor only fills `subID` and
`email`, leaving the other fields at their zero values). -/
structure SubscriptionData where
  subID : String
  email : String
  nodeConfig : String
  headers : SubscriptionHeaders
deriving Repr, DecidableEq

/-- The zero value of `SubscriptionHeaders`. -/
def emptyHeaders : SubscriptionHeaders :=
  ⟨"", "", ""⟩

/-- Embeds `InboundInfo`.  The `Settings` field is a JSON string in Go;
here it carries the outcome of `json.Unmarshal` into `ClientSettings`,
with `none` standing for a string that fails to parse. -/
structure InboundInfo where
  id : Int
  remark : String
  enable : Bool
  settings : Option ClientSettings
deriving Repr, DecidableEq

/-- Whether the accumulated result already holds an entry for `k`
(the `subIDMap` membership test). -/
def hasKey (acc : List SubscriptionData) (k : String) : Bool :=
  acc.any fun d => d.subID == k

/-- One iteration of the inner client loop of `ExtractUniqueSubIDs`:
disabled clients, empty sub-ids and already-seen keys are skipped,
anything else is recorded. -/
def insertClient (acc : List SubscriptionData) (c : ClientInfo) : List SubscriptionData :=
  if c.enable = false then acc
  else if c.subID = "" then acc
  else if hasKey acc c.subID then acc
  else acc ++ [⟨c.subID, c.email, "", emptyHeaders⟩]

/-- One iteration of the outer inbound loop of `ExtractUniqueSubIDs`:
a disabled inbound or one with unparseable settings contributes
nothing. -/
def processInbound (acc : List SubscriptionData) (ib : InboundInfo) : List SubscriptionData :=
  if ib.enable = false then acc
  else
    match ib.settings with
    | none => acc
    | some s => s.clients.foldl insertClient acc

/-- Embeds `ExtractUniqueSubIDs`.  The Go function accumulates into a
map and returns `(values, nil)`; the model keeps first-insertion order
(Go map iteration order is unspecified, so theorems below only use
order-insensitive consequences) and surfaces the error component, which
the source always returns as `nil`. -/
def ExtractUniqueSubIDs (inbounds : List InboundInfo) :
    List SubscriptionData × Option String :=
  (inbounds.foldl processInbound [], none)

end Subscription

open Subscription

/-- Anything in the output of `insertClient` is either old or stems from
an enabled client with a non-empty sub-id. -/
theorem mem_insertClient (acc : List SubscriptionData) (c : ClientInfo)
    (d : SubscriptionData) (h : d ∈ Subscription.insertClient acc c) :
    d ∈ acc ∨ (c.enable = true ∧ c.subID ≠ "" ∧ d = ⟨c.subID, c.email, "", emptyHeaders⟩) := by
  unfold Subscription.insertClient at h
  split_ifs at h with h1 h2 h3
  · exact Or.inl h
  · exact Or.inl h
  · exact Or.inl h
  · rcases List.mem_append.mp h with hl | hr
    · exact Or.inl hl
    · exact Or.inr ⟨Bool.not_eq_false _ ▸ h1, h2, by simpa using hr⟩

/-- Lifts `mem_insertClient` through the client fold. -/
theorem mem_clients_foldl (cs : List ClientInfo) :
    ∀ (acc : List SubscriptionData) (d : SubscriptionData),
      d ∈ cs.foldl Subscription.insertClient acc →
      d ∈ acc ∨ ∃ c ∈ cs, c.enable = true ∧ c.subID ≠ ""
        ∧ d = ⟨c.subID, c.email, "", emptyHeaders⟩ := by
  induction cs with
  | nil => intro acc d h; exact Or.inl (by simpa using h)
  | cons c t ih =>
    intro acc d h
    simp only [List.foldl_cons] at h
    rcases ih _ d h with hmem | ⟨c1, hc1, hrest⟩
    · rcases mem_insertClient acc c d hmem with hold | hnew
      · exact Or.inl hold
      · exact Or.inr ⟨c, List.mem_cons_self c t, hnew⟩
    · exact Or.inr ⟨c1, List.mem_cons_of_mem _ hc1, hrest⟩

/-- Anything produced by `processInbound` beyond the accumulator stems
from an enabled inbound with parseable settings and an enabled,
non-empty-sub-id client. -/
theorem mem_processInbound (acc : List SubscriptionData) (ib : InboundInfo)
    (d : SubscriptionData) (h : d ∈ Subscription.processInbound acc ib) :
    d ∈ acc ∨ (ib.enable = true ∧ ∃ s, ib.settings = some s
      ∧ ∃ c ∈ s.clients, c.enable = true ∧ c.subID ≠ ""
        ∧ d = ⟨c.subID, c.email, "", emptyHeaders⟩) := by
  unfold Subscription.processInbound at h
  by_cases he : ib.enable = false
  · simp [he] at h
    exact Or.inl h
  · cases hs : ib.settings with
    | none =>
      simp [he, hs] at h
      exact Or.inl h
    | some s =>
      simp only [he, if_false, hs] at h
      rcases mem_clients_foldl s.clients acc d h with hold | ⟨c, hc, hrest⟩
      · exact Or.inl hold
      · exact Or.inr ⟨Bool.not_eq_false _ ▸ he, s, rfl, c, hc, hrest⟩

/-- Lifts `mem_processInbound` through the inbound fold. -/
theorem mem_inbounds_foldl (l : List InboundInfo) :
    ∀ (acc : List SubscriptionData) (d : SubscriptionData),
      d ∈ l.foldl Subscription.processInbound acc →
      d ∈ acc ∨ ∃ ib ∈ l, ib.enable = true ∧ ∃ s, ib.settings = some s
        ∧ ∃ c ∈ s.clients, c.enable = true ∧ c.subID ≠ ""
          ∧ d = ⟨c.subID, c.email, "", emptyHeaders⟩ := by
  induction l with
  | nil => intro acc d h; exact Or.inl (by simpa using h)
  | cons ib t ih =>
    intro acc d h
    simp only [List.foldl_cons] at h
    rcases ih _ d h with hmem | ⟨ib1, hib1, hrest⟩
    · rcases mem_processInbound acc ib d hmem with hold | hnew
      · exact Or.inl hold
      · exact Or.inr ⟨ib, List.mem_cons_self ib t, hnew⟩
    · exact Or.inr ⟨ib1, List.mem_cons_of_mem _ hib1, hrest⟩

/-- `insertClient` preserves key-distinctness: the guard refuses a key
that is already present. -/
theorem pairwise_insertClient (acc : List SubscriptionData) (c : ClientInfo)
    (h : acc.Pairwise fun a b => a.subID ≠ b.subID) :
    (Subscription.insertClient acc c).Pairwise fun a b => a.subID ≠ b.subID := by
  unfold Subscription.insertClient
  split_ifs with h1 h2 h3
  · exact h
  · exact h
  · exact h
  · rw [List.pairwise_append]
    refine ⟨h, List.pairwise_singleton _ _, ?_⟩
    intro a ha b hb
    simp only [List.mem_singleton] at hb
    subst hb
    intro heq
    apply h3
    simp only [Subscription.hasKey, List.any_eq_true, beq_iff_eq]
    exact ⟨a, ha, heq⟩

/-- Key-distinctness survives the client fold. -/
theorem pairwise_clients_foldl (cs : List ClientInfo) :
    ∀ acc : List SubscriptionData, (acc.Pairwise fun a b => a.subID ≠ b.subID) →
      (cs.foldl Subscription.insertClient acc).Pairwise fun a b => a.subID ≠ b.subID := by
  induction cs with
  | nil => intro acc h; simpa using h
  | cons c t ih =>
    intro acc h
    simp only [List.foldl_cons]
    exact ih _ (pairwise_insertClient acc c h)

/-- Key-distinctness survives `processInbound`. -/
theorem pairwise_processInbound (acc : List SubscriptionData) (ib : InboundInfo)
    (h : acc.Pairwise fun a b => a.subID ≠ b.subID) :
    (Subscription.processInbound acc ib).Pairwise fun a b => a.subID ≠ b.subID := by
  unfold Subscription.processInbound
  by_cases he : ib.enable = false
  · simpa [he] using h
  · cases hs : ib.settings with
    | none => simpa [he, hs] using h
    | some s =>
      simp only [he, if_false, hs]
      exact pairwise_clients_foldl s.clients acc h

/-- Key-distinctness survives the inbound fold. -/
theorem pairwise_inbounds_foldl (l : List InboundInfo) :
    ∀ acc : List SubscriptionData, (acc.Pairwise fun a b => a.subID ≠ b.subID) →
      (l.foldl Subscription.processInbound acc).Pairwise fun a b => a.subID ≠ b.subID := by
  induction l with
  | nil => intro acc h; simpa using h
  | cons ib t ih =>
    intro acc h
    simp only [List.foldl_cons]
    exact ih _ (pairwise_processInbound acc ib h)

/-- A key present in the accumulator stays present after `insertClient`. -/
theorem hasKey_insertClient_mono (acc : List SubscriptionData) (c : ClientInfo)
    (k : String) (h : Subscription.hasKey acc k = true) :
    Subscription.hasKey (Subscription.insertClient acc c) k = true := by
  unfold Subscription.insertClient
  split_ifs with h1 h2 h3
  · exact h
  · exact h
  · exact h
  · simp only [Subscription.hasKey, List.any_append] at h ⊢
    simp [Subscription.hasKey] at h
    simp [h]

/-- A key present in the accumulator stays present through the client
fold. -/
theorem hasKey_clients_foldl_mono (cs : List ClientInfo) :
    ∀ (acc : List SubscriptionData) (k : String), Subscription.hasKey acc k = true →
      Subscription.hasKey (cs.foldl Subscription.insertClient acc) k = true := by
  induction cs with
  | nil => intro acc k h; simpa using h
  | cons c t ih =>
    intro acc k h
    simp only [List.foldl_cons]
    exact ih _ k (hasKey_insertClient_mono acc c k h)

/-- A key present in the accumulator stays present through
`processInbound`. -/
theorem hasKey_processInbound_mono (acc : List SubscriptionData) (ib : InboundInfo)
    (k : String) (h : Subscription.hasKey acc k = true) :
    Subscription.hasKey (Subscription.processInbound acc ib) k = true := by
  unfold Subscription.processInbound
  by_cases he : ib.enable = false
  · simpa [he] using h
  · cases hs : ib.settings with
    | none => simpa [he, hs] using h
    | some s =>
      simp only [he, if_false, hs]
      exact hasKey_clients_foldl_mono s.clients acc k h

/-- A key present in the accumulator stays present through the inbound
fold. -/
theorem hasKey_inbounds_foldl_mono (l : List InboundInfo) :
    ∀ (acc : List SubscriptionData) (k : String), Subscription.hasKey acc k = true →
      Subscription.hasKey (l.foldl Subscription.processInbound acc) k = true := by
  induction l with
  | nil => intro acc k h; simpa using h
  | cons ib t ih =>
    intro acc k h
    simp only [List.foldl_cons]
    exact ih _ k (hasKey_processInbound_mono acc ib k h)

/-- Inserting an enabled client with a non-empty sub-id makes its key
present. -/
theorem hasKey_insertClient_self (acc : List SubscriptionData) (c : ClientInfo)
    (he : c.enable = true) (hs : c.subID ≠ "") :
    Subscription.hasKey (Subscription.insertClient acc c) c.subID = true := by
  unfold Subscription.insertClient
  split_ifs with h1 h2
  · rw [he] at h1; exact absurd h1 (by simp)
  · exact h2
  · simp [Subscription.hasKey, List.any_append]

/-- Every enabled, non-empty-sub-id client in the list leaves its key in
the fold result. -/
theorem hasKey_clients_foldl_self (cs : List ClientInfo) :
    ∀ (acc : List SubscriptionData) (c : ClientInfo), c ∈ cs → c.enable = true →
      c.subID ≠ "" →
      Subscription.hasKey (cs.foldl Subscription.insertClient acc) c.subID = true := by
  induction cs with
  | nil => intro acc c hc; exact absurd hc (List.not_mem_nil c)
  | cons hd t ih =>
    intro acc c hc he hs
    simp only [List.foldl_cons]
    rcases List.mem_cons.mp hc with heq | hmem
    · subst heq
      exact hasKey_clients_foldl_mono t _ _ (hasKey_insertClient_self acc c he hs)
    · exact ih _ c hmem he hs

/-- Completeness across the inbound fold: every enabled client with a
non-empty sub-id inside an enabled, parseable inbound leaves its key in
the result. -/
theorem hasKey_inbounds_foldl_self (l : List InboundInfo) :
    ∀ (acc : List SubscriptionData) (ib : InboundInfo) (s : ClientSettings)
      (c : ClientInfo), ib ∈ l → ib.enable = true → ib.settings = some s →
      c ∈ s.clients → c.enable = true → c.subID ≠ "" →
      Subscription.hasKey (l.foldl Subscription.processInbound acc) c.subID = true := by
  induction l with
  | nil => intro acc ib s c hib; exact absurd hib (List.not_mem_nil ib)
  | cons hd t ih =>
    intro acc ib s c hib he hsettings hc hcen hcsub
    simp only [List.foldl_cons]
    rcases List.mem_cons.mp hib with heq | hmem
    · subst heq
      have hstep : Subscription.hasKey (Subscription.processInbound acc ib) c.subID
          = true := by
        unfold Subscription.processInbound
        rw [he]
        simp only [Bool.true_eq_false, if_false, hsettings]
        exact hasKey_clients_foldl_self s.clients acc c hc hcen hcsub
      exact hasKey_inbounds_foldl_mono t _ _ hstep
    · exact ih _ ib s c hmem he hsettings hc hcen hcsub

/-- A present key is realized by an actual entry of the result. -/
theorem hasKey_exists (acc : List SubscriptionData) (k : String)
    (h : Subscription.hasKey acc k = true) : ∃ d ∈ acc, d.subID = k := by
  simpa [Subscription.hasKey, List.any_eq_true] using h

namespace Subscription

/-- The clients one inbound contributes to the scan: none when disabled
or unparseable, its client list otherwise. -/
def inboundClients (ib : InboundInfo) : List ClientInfo :=
  if ib.enable = false then []
  else
    match ib.settings with
    | none => []
    | some s => s.clients

/-- All client records in exactly the order the source visits them:
inbounds in list order, then each group's clients in list order. -/
def clientStream : List InboundInfo → List ClientInfo
  | [] => []
  | ib :: rest => inboundClients ib ++ clientStream rest

end Subscription

/-- Processing one inbound is folding `insertClient` over the clients it
contributes. -/
theorem processInbound_eq_inboundClients (acc : List SubscriptionData)
    (ib : InboundInfo) :
    Subscription.processInbound acc ib
      = (Subscription.inboundClients ib).foldl Subscription.insertClient acc := by
  by_cases he : ib.enable = false
  · simp [Subscription.processInbound, Subscription.inboundClients, he]
  · cases hs : ib.settings with
    | none => simp [Subscription.processInbound, Subscription.inboundClients, he, hs]
    | some s => simp [Subscription.processInbound, Subscription.inboundClients, he, hs]

/-- Folding the inbounds equals folding the flattened client stream. -/
theorem foldl_processInbound_eq_stream (inbounds : List InboundInfo) :
    ∀ acc : List SubscriptionData,
      inbounds.foldl Subscription.processInbound acc
        = (Subscription.clientStream inbounds).foldl Subscription.insertClient acc := by
  induction inbounds with
  | nil => intro acc; rfl
  | cons ib rest ih =>
    intro acc
    simp only [List.foldl_cons, Subscription.clientStream, List.foldl_append]
    rw [ih, processInbound_eq_inboundClients]

/-- A genuinely inserted entry comes from an enabled client whose
non-empty key was not yet present. -/
theorem mem_insertClient_new (acc : List SubscriptionData) (c : ClientInfo)
    (d : SubscriptionData) (h : d ∈ Subscription.insertClient acc c) (hnot : d ∉ acc) :
    c.enable = true ∧ c.subID ≠ "" ∧ Subscription.hasKey acc c.subID = false
    ∧ d = ⟨c.subID, c.email, "", emptyHeaders⟩ := by
  unfold Subscription.insertClient at h
  split_ifs at h with h1 h2 h3
  · exact absurd h hnot
  · exact absurd h hnot
  · exact absurd h hnot
  · rcases List.mem_append.mp h with hl | hr
    · exact absurd hl hnot
    · exact ⟨Bool.not_eq_false _ ▸ h1, h2, Bool.not_eq_true _ ▸ h3, by simpa using hr⟩

/-- First-encounter invariant of the client fold: an entry not taken from
the accumulator carries the email of the first enabled client in the
list that holds its key. -/
theorem foldl_insert_first_encounter (cs : List ClientInfo) :
    ∀ (acc : List SubscriptionData) (d : SubscriptionData),
      d ∈ cs.foldl Subscription.insertClient acc →
      d ∈ acc ∨
        (d.subID ≠ "" ∧ Subscription.hasKey acc d.subID = false
          ∧ cs.find? (fun c => c.enable && c.subID == d.subID)
              = some ⟨d.email, d.subID, true⟩) := by
  induction cs with
  | nil => intro acc d h; exact Or.inl (by simpa using h)
  | cons c rest ih =>
    intro acc d h
    simp only [List.foldl_cons] at h
    rcases ih _ d h with hmem | ⟨hne, hkey, hfind⟩
    · by_cases hacc : d ∈ acc
      · exact Or.inl hacc
      · obtain ⟨cem, csid, cen⟩ := c
        obtain ⟨hen, hsub, hk0, hd⟩ := mem_insertClient_new acc _ d hmem hacc
        right
        subst hd
        subst hen
        refine ⟨hsub, hk0, ?_⟩
        rw [List.find?_cons_of_pos _ (by simp)]
    · right
      have hkacc : Subscription.hasKey acc d.subID = false := by
        cases hb : Subscription.hasKey acc d.subID
        · rfl
        · have hmono := hasKey_insertClient_mono acc c d.subID hb
          rw [hkey] at hmono
          exact absurd hmono (by decide)
      refine ⟨hne, hkacc, ?_⟩
      have hpc : ¬((fun x : ClientInfo => x.enable && x.subID == d.subID) c = true) := by
        intro hp
        simp only [Bool.and_eq_true, beq_iff_eq] at hp
        have hself := hasKey_insertClient_self acc c hp.1 (by rw [hp.2]; exact hne)
        rw [hp.2, hkey] at hself
        exact absurd hself (by decide)
      have hpc2 : (c.enable && c.subID == d.subID) = false := by
        cases hcb : (c.enable && c.subID == d.subID)
        · rfl
        · exact absurd hcb hpc
      rw [List.find?_cons, hpc2]
      exact hfind

/-- The concrete scenario from the specification's testable properties:
one enabled inbound with two enabled distinct-subscription clients and a
disabled client, plus a disabled inbound. -/
def scenarioInbounds : List InboundInfo :=
  [⟨1, "grp1", true, some ⟨[⟨"a@x", "sub-a", true⟩, ⟨"b@x", "sub-b", true⟩,
      ⟨"c@x", "sub-c", false⟩]⟩⟩,
   ⟨2, "grp2", false, some ⟨[⟨"d@x", "sub-d", true⟩]⟩⟩]

/-- C5: `ExtractUniqueSubIDs` keeps exactly one entry per distinct
subscription key of enabled clients in enabled inbounds.  On the spec's
two-groups scenario it yields exactly the two enabled unique entries; in
general the result has pairwise-distinct keys, every entry stems from an
enabled client of an enabled inbound, every enabled client with a
non-empty key of an enabled, parseable inbound is represented, and each
entry carries the email of the first enabled client — in the source's
iteration order over inbounds and their clients — holding its key, so a
duplicated key collapses to the first encountered client. -/
theorem extract_unique_subids_filters :
    ((Subscription.ExtractUniqueSubIDs scenarioInbounds).1.length = 2
      ∧ (⟨"sub-a", "a@x", "", Subscription.emptyHeaders⟩ : SubscriptionData)
          ∈ (Subscription.ExtractUniqueSubIDs scenarioInbounds).1
      ∧ (⟨"sub-b", "b@x", "", Subscription.emptyHeaders⟩ : SubscriptionData)
          ∈ (Subscription.ExtractUniqueSubIDs scenarioInbounds).1)
    ∧ (∀ inbounds : List InboundInfo,
        ((Subscription.ExtractUniqueSubIDs inbounds).1).Pairwise
          fun a b => a.subID ≠ b.subID)
    ∧ (∀ (inbounds : List InboundInfo) (d : SubscriptionData),
        d ∈ (Subscription.ExtractUniqueSubIDs inbounds).1 →
        ∃ ib ∈ inbounds, ib.enable = true ∧ ∃ s, ib.settings = some s
          ∧ ∃ c ∈ s.clients, c.enable = true ∧ c.subID ≠ ""
            ∧ d = ⟨c.subID, c.email, "", Subscription.emptyHeaders⟩)
    ∧ (∀ (inbounds : List InboundInfo) (ib : InboundInfo) (s : ClientSettings)
        (c : ClientInfo), ib ∈ inbounds → ib.enable = true → ib.settings = some s →
        c ∈ s.clients → c.enable = true → c.subID ≠ "" →
        ∃ d ∈ (Subscription.ExtractUniqueSubIDs inbounds).1, d.subID = c.subID)
    ∧ (∀ (inbounds : List InboundInfo) (d : SubscriptionData),
        d ∈ (Subscription.ExtractUniqueSubIDs inbounds).1 →
        (Subscription.clientStream inbounds).find?
            (fun c => c.enable && c.subID == d.subID)
          = some ⟨d.email, d.subID, true⟩) := by
  refine ⟨⟨by decide, by decide, by decide⟩, ?_, ?_, ?_, ?_⟩
  · intro inbounds
    exact pairwise_inbounds_foldl inbounds [] List.Pairwise.nil
  · intro inbounds d h
    rcases mem_inbounds_foldl inbounds [] d h with h0 | hrest
    · exact absurd h0 (List.not_mem_nil d)
    · exact hrest
  · intro inbounds ib s c hib he hs hc hcen hcsub
    exact hasKey_exists _ _
      (hasKey_inbounds_foldl_self inbounds [] ib s c hib he hs hc hcen hcsub)
  · intro inbounds d h
    have h2 : d ∈ (Subscription.clientStream inbounds).foldl Subscription.insertClient [] := by
      rw [← foldl_processInbound_eq_stream]
      exact h
    rcases foldl_insert_first_encounter (Subscription.clientStream inbounds) [] d h2
      with h0 | ⟨_, _, hfind⟩
    · exact absurd h0 (List.not_mem_nil d)
    · exact hfind

/-- Witness for C5: in an enabled inbound holding two enabled clients
that share the key `k`, the key is represented in the output and the
retained entry carries the email of the first of the two clients, and
the concrete scenario's soundness holds at `sub-a`. -/
theorem extract_unique_subids_filters_witness :
    (∃ d ∈ (Subscription.ExtractUniqueSubIDs
        [⟨1, "dup", true, some ⟨[⟨"a@x", "k", true⟩, ⟨"b@x", "k", true⟩]⟩⟩]).1,
      d.subID = "k")
    ∧ (Subscription.clientStream
          [⟨1, "dup", true, some ⟨[⟨"a@x", "k", true⟩, ⟨"b@x", "k", true⟩]⟩⟩]).find?
        (fun c => c.enable && c.subID
          == (⟨"k", "a@x", "", Subscription.emptyHeaders⟩ : SubscriptionData).subID)
        = some ⟨"a@x", "k", true⟩
    ∧ ∃ ib ∈ scenarioInbounds, ib.enable = true ∧ ∃ s, ib.settings = some s
        ∧ ∃ c ∈ s.clients, c.enable = true ∧ c.subID ≠ ""
          ∧ (⟨"sub-a", "a@x", "", Subscription.emptyHeaders⟩ : SubscriptionData)
              = ⟨c.subID, c.email, "", Subscription.emptyHeaders⟩ := by
  refine ⟨?_, ?_, ?_⟩
  · exact extract_unique_subids_filters.2.2.2.1
      [⟨1, "dup", true, some ⟨[⟨"a@x", "k", true⟩, ⟨"b@x", "k", true⟩]⟩⟩]
      ⟨1, "dup", true, some ⟨[⟨"a@x", "k", true⟩, ⟨"b@x", "k", true⟩]⟩⟩
      ⟨[⟨"a@x", "k", true⟩, ⟨"b@x", "k", true⟩]⟩
      ⟨"a@x", "k", true⟩
      (by decide) rfl rfl (by decide) rfl (by decide)
  · exact extract_unique_subids_filters.2.2.2.2
      [⟨1, "dup", true, some ⟨[⟨"a@x", "k", true⟩, ⟨"b@x", "k", true⟩]⟩⟩]
      ⟨"k", "a@x", "", Subscription.emptyHeaders⟩ (by decide)
  · exact extract_unique_subids_filters.2.2.1 scenarioInbounds
      ⟨"sub-a", "a@x", "", Subscription.emptyHeaders⟩ (by decide)

/-- C10: the extractor is total.  The error component of the result is
always `nil`, an inbound whose settings fail to parse contributes
nothing (wherever it sits in the list), and no entry of the result
carries an empty subscription key. -/
theorem extract_unique_subids_total :
    (∀ inbounds : List InboundInfo,
      (Subscription.ExtractUniqueSubIDs inbounds).2 = none)
    ∧ (∀ (l1 l2 : List InboundInfo) (i : Int) (rem : String),
        (Subscription.ExtractUniqueSubIDs (l1 ++ ⟨i, rem, true, none⟩ :: l2)).1
          = (Subscription.ExtractUniqueSubIDs (l1 ++ l2)).1)
    ∧ (∀ (inbounds : List InboundInfo) (d : SubscriptionData),
        d ∈ (Subscription.ExtractUniqueSubIDs inbounds).1 → d.subID ≠ "") := by
  refine ⟨fun _ => rfl, ?_, ?_⟩
  · intro l1 l2 i rem
    simp [Subscription.ExtractUniqueSubIDs, List.foldl_append,
      Subscription.processInbound]
  · intro inbounds d h
    rcases mem_inbounds_foldl inbounds [] d h with h0 | hrest
    · exact absurd h0 (List.not_mem_nil d)
    · obtain ⟨ib, _, _, s, _, c, _, _, hcsub, hd⟩ := hrest
      rw [hd]
      exact hcsub

/-- Witness for C10: a malformed-settings inbound is dropped without an
error, and a concrete result entry has a non-empty key. -/
theorem extract_unique_subids_total_witness :
    (Subscription.ExtractUniqueSubIDs ([] : List InboundInfo)).2 = none
    ∧ (Subscription.ExtractUniqueSubIDs [⟨1, "bad", true, none⟩]).1
        = (Subscription.ExtractUniqueSubIDs ([] : List InboundInfo)).1
    ∧ (⟨"k", "a@x", "", Subscription.emptyHeaders⟩ : SubscriptionData).subID ≠ "" := by
  refine ⟨extract_unique_subids_total.1 [], ?_, ?_⟩
  · exact extract_unique_subids_total.2.1 [] [] 1 "bad"
  · exact extract_unique_subids_total.2.2 [⟨1, "g", true, some ⟨[⟨"a@x", "k", true⟩]⟩⟩]
      ⟨"k", "a@x", "", Subscription.emptyHeaders⟩ (by decide)

namespace Auth

/-- One hour in nanoseconds, Go's `time.Hour` as a `time.Duration`. -/
def hourNs : Int := 3600 * 1000000000

/-- State of `XUIAuth` from `internal/auth`.  Timestamps are carried as
`Int` nanoseconds since an arbitrary epoch (`time.Time` differences are
`int64` nanosecond durations in Go). -/
structure XUIAuth where
  baseURL : String
  username : String
  password : String
  sessionToken : String
  cookieName : String
  lastLogin : Int
deriving Repr, DecidableEq

/-- Embeds `IsSessionExpired` at instant `now`: `time.Since(lastLogin)`
is `now - lastLogin`. -/
def IsSessionExpired (a : XUIAuth) (now : Int) : Bool :=
  if a.sessionToken = "" then true
  else decide (now - a.lastLogin > hourNs)

/-- Embeds the Go `LoginResponse` JSON shape. -/
structure LoginResponse where
  success : Bool
  message : String
deriving Repr, DecidableEq

/-- A parsed response cookie (`http.Cookie`, restricted to the fields
`Login` reads). -/
structure Cookie where
  name : String
  value : String
deriving Repr, DecidableEq

/-- The parts of the login HTTP response that `Login` inspects.  `body`
is the outcome of decoding the JSON body (`none` = parse failure);
`cookies` is Go's parsed view `resp.Cookies()` of the `Set-Cookie`
headers; `allHeaders` is the flattened header map used in the
diagnostic message. -/
structure HTTPResponse where
  statusCode : Int
  body : Option LoginResponse
  setCookieHeaders : List String
  cookies : List Cookie
  allHeaders : List (String × String)
deriving Repr, DecidableEq

/-- Go's `strings.Split` with a one-character separator, over the
character list (structural recursion, so the kernel can evaluate it). -/
def splitListOn (sep : Char) : List Char → List (List Char)
  | [] => [[]]
  | c :: rest =>
    match splitListOn sep rest with
    | [] => if c = sep then [[], []] else [[c]]
    | h :: t => if c = sep then [] :: h :: t else (c :: h) :: t

/-- Go's `strings.TrimSpace` over the character list: drop whitespace
from both ends. -/
def trimList (l : List Char) : List Char :=
  ((l.dropWhile Char.isWhitespace).reverse.dropWhile Char.isWhitespace).reverse

/-- The loop body of `extractSessionFromSetCookie` over the
semicolon-separated pieces.  A piece starting with a known cookie name
yields everything after its first `=` (Go's `SplitN(c, "=", 2)[1]`,
which is `drop` past the known-length name). -/
def extractLoop : List (List Char) → String × String
  | [] => ("", "")
  | c :: rest =>
    if "3x-ui=".data.isPrefixOf (trimList c) then (⟨(trimList c).drop 6⟩, "3x-ui")
    else if "session=".data.isPrefixOf (trimList c) then
      (⟨(trimList c).drop 8⟩, "session")
    else extractLoop rest

/-- Embeds `extractSessionFromSetCookie`. -/
def extractSessionFromSetCookie (setCookie : String) : String × String :=
  extractLoop (splitListOn ';' setCookie.data)

/-- The `Set-Cookie` loop of `Login`: the first header yielding a
non-empty token sets the session fields and stops. -/
def applySetCookies (a : XUIAuth) (now : Int) : List String → XUIAuth
  | [] => a
  | sc :: rest =>
    if (extractSessionFromSetCookie sc).1 ≠ "" then
      { a with sessionToken := (extractSessionFromSetCookie sc).1,
               cookieName := (extractSessionFromSetCookie sc).2,
               lastLogin := now }
    else
      applySetCookies a now rest

/-- The fallback cookie loop of `Login`: the first cookie named `3x-ui`
or `session` sets the session fields (even when its value is empty) and
stops. -/
def applyCookies (a : XUIAuth) (now : Int) : List Cookie → XUIAuth
  | [] => a
  | c :: rest =>
    if c.name = "3x-ui" ∨ c.name = "session" then
      { a with sessionToken := c.value, cookieName := c.name, lastLogin := now }
    else
      applyCookies a now rest

/-- The header dump built for the diagnostic error message
(`allHeaders += fmt.Sprintf("%s: %s; ", name, value)`). -/
def renderHeaders : List (String × String) → String
  | [] => ""
  | (n, v) :: rest => n ++ ": " ++ v ++ "; " ++ renderHeaders rest

/-- The cookie-extraction tail of `Login` after the panel has reported
success: try the `Set-Cookie` headers, fall back to the parsed cookies
only when the stored token is still empty, and fail with the header dump
when the stored token remains empty. -/
def loginExtract (a : XUIAuth) (resp : HTTPResponse) (now : Int) :
    XUIAuth × Option String :=
  let a1 := applySetCookies a now resp.setCookieHeaders
  let a2 := if a1.sessionToken = "" then applyCookies a1 now resp.cookies else a1
  if a2.sessionToken = "" then
    (a2, some ("login successful but failed to get session cookie. Response headers: "
      ++ renderHeaders resp.allHeaders))
  else
    (a2, none)

/-- Embeds `Login` as a function of the authenticator state, the HTTP
response and the current instant; the second component is the returned
error (`none` = `nil`). -/
def Login (a : XUIAuth) (resp : HTTPResponse) (now : Int) : XUIAuth × Option String :=
  if resp.statusCode ≠ 200 then
    (a, some ("login failed, HTTP status code: " ++ toString resp.statusCode))
  else
    match resp.body with
    | none => (a, some "failed to parse login response")
    | some lr =>
      if lr.success = false then
        (a, some ("login failed: " ++ lr.message))
      else
        loginExtract a resp now

end Auth

/-- C6: a session is reported expired exactly when no token is held or
more than one hour has elapsed since the last login; concretely, a
two-hour-old session is expired and a one-minute-old one is not. -/
theorem session_expiry_iff :
    (∀ (a : Auth.XUIAuth) (now : Int),
      Auth.IsSessionExpired a now = true ↔
        (a.sessionToken = "" ∨ Auth.hourNs < now - a.lastLogin))
    ∧ Auth.IsSessionExpired ⟨"u", "n", "p", "tok", "3x-ui", 0⟩ (2 * Auth.hourNs) = true
    ∧ Auth.IsSessionExpired ⟨"u", "n", "p", "tok", "3x-ui", 0⟩ (60 * 1000000000)
        = false := by
  refine ⟨?_, by decide, by decide⟩
  intro a now
  by_cases h : a.sessionToken = "" <;> simp [Auth.IsSessionExpired, h]

/-- The `Set-Cookie` loop either leaves the state untouched or stamps the
login instant. -/
theorem applySetCookies_cases (now : Int) :
    ∀ (l : List String) (a : Auth.XUIAuth),
      Auth.applySetCookies a now l = a
      ∨ (Auth.applySetCookies a now l).lastLogin = now := by
  intro l
  induction l with
  | nil => intro a; exact Or.inl rfl
  | cons sc rest ih =>
    intro a
    by_cases hp : (Auth.extractSessionFromSetCookie sc).1 ≠ ""
    · right
      simp [Auth.applySetCookies, hp]
    · rw [Auth.applySetCookies, if_neg hp]
      exact ih a

/-- The fallback cookie loop either leaves the state untouched or stamps
the login instant. -/
theorem applyCookies_cases (now : Int) :
    ∀ (l : List Auth.Cookie) (a : Auth.XUIAuth),
      Auth.applyCookies a now l = a
      ∨ (Auth.applyCookies a now l).lastLogin = now := by
  intro l
  induction l with
  | nil => intro a; exact Or.inl rfl
  | cons c rest ih =>
    intro a
    by_cases hp : c.name = "3x-ui" ∨ c.name = "session"
    · right
      simp [Auth.applyCookies, hp]
    · rw [Auth.applyCookies, if_neg hp]
      exact ih a

/-- If the stored token is empty beforehand, a `nil` outcome of the
extraction tail means a token was freshly extracted and timestamped. -/
theorem loginExtract_none_fresh (a : Auth.XUIAuth) (resp : Auth.HTTPResponse)
    (now : Int) (ha : a.sessionToken = "") :
    (Auth.loginExtract a resp now).2 = none →
    (Auth.loginExtract a resp now).1.sessionToken ≠ ""
    ∧ (Auth.loginExtract a resp now).1.lastLogin = now := by
  intro h
  simp only [Auth.loginExtract] at h ⊢
  by_cases h1 : (Auth.applySetCookies a now resp.setCookieHeaders).sessionToken = ""
  · rw [if_pos h1] at h ⊢
    by_cases h2 : (Auth.applyCookies (Auth.applySetCookies a now resp.setCookieHeaders)
        now resp.cookies).sessionToken = ""
    · rw [if_pos h2] at h
      simp at h
    · rw [if_neg h2] at h ⊢
      refine ⟨h2, ?_⟩
      rcases applyCookies_cases now resp.cookies
          (Auth.applySetCookies a now resp.setCookieHeaders) with he2 | hl2
      · rw [he2] at h2 ⊢
        rcases applySetCookies_cases now resp.setCookieHeaders a with he1 | hl1
        · rw [he1] at h2
          exact absurd ha h2
        · exact hl1
      · exact hl2
  · rw [if_neg h1] at h ⊢
    rw [if_neg h1] at h ⊢
    refine ⟨h1, ?_⟩
    rcases applySetCookies_cases now resp.setCookieHeaders a with he1 | hl1
    · rw [he1] at h1
      exact absurd ha h1
    · exact hl1

/-- The extraction tail either succeeds or fails with exactly the
header-dump diagnostic. -/
theorem loginExtract_err_shape (a : Auth.XUIAuth) (resp : Auth.HTTPResponse)
    (now : Int) :
    (Auth.loginExtract a resp now).2 = none
    ∨ (Auth.loginExtract a resp now).2
      = some ("login successful but failed to get session cookie. Response headers: "
          ++ Auth.renderHeaders resp.allHeaders) := by
  simp only [Auth.loginExtract]
  by_cases h1 : (Auth.applySetCookies a now resp.setCookieHeaders).sessionToken = ""
  · rw [if_pos h1]
    by_cases h2 : (Auth.applyCookies (Auth.applySetCookies a now resp.setCookieHeaders)
        now resp.cookies).sessionToken = ""
    · rw [if_pos h2]
      exact Or.inr rfl
    · rw [if_neg h2]
      exact Or.inl rfl
  · rw [if_neg h1]
    rw [if_neg h1]
    exact Or.inl rfl

/-- Each header pair appears verbatim in the rendered header dump. -/
theorem renderHeaders_contains (l : List (String × String)) (n v : String)
    (h : (n, v) ∈ l) :
    (n ++ ": " ++ v).data <:+: (Auth.renderHeaders l).data := by
  induction l with
  | nil => cases h
  | cons p rest ih =>
    rcases List.mem_cons.mp h with he | hm
    · obtain ⟨pn, pv⟩ := p
      obtain ⟨hn, hv⟩ := Prod.mk.injEq .. ▸ he.symm
      subst hn
      subst hv
      exact ⟨[], ("; " ++ Auth.renderHeaders rest).data,
        by simp [Auth.renderHeaders, String.data_append]⟩
    · refine (ih hm).trans ⟨(p.1 ++ ": " ++ p.2 ++ "; ").data, [], ?_⟩
      obtain ⟨pn, pv⟩ := p
      simp [Auth.renderHeaders, String.data_append]

/-- C4 counterexample: an authenticator still holding a stale token calls
`Login`; the panel reports success but sets no cookie at all.  `Login`
returns `nil` and stores nothing fresh — the extraction check reads the
stored field, so the stale token masks the extraction failure. -/
theorem login_stale_token_counterexample :
    (Auth.Login ⟨"http://127.0.0.1:54321", "admin", "pw", "old-token", "3x-ui", 0⟩
        ⟨200, some ⟨true, "ok"⟩, [], [], []⟩ 1000).2 = none
    ∧ (Auth.Login ⟨"http://127.0.0.1:54321", "admin", "pw", "old-token", "3x-ui", 0⟩
        ⟨200, some ⟨true, "ok"⟩, [], [], []⟩ 1000).1
      = ⟨"http://127.0.0.1:54321", "admin", "pw", "old-token", "3x-ui", 0⟩ := by
  constructor <;> decide

/-- C4 amended: provided the authenticator holds no session token at the
start of the call, `Login` returns `nil` only with a freshly extracted,
freshly timestamped credential, and on a successful panel response it
either succeeds or fails with a message that lists every inspected
response header. -/
theorem login_fresh_session_amended (a : Auth.XUIAuth) (resp : Auth.HTTPResponse)
    (now : Int) (ha : a.sessionToken = "") :
    ((Auth.Login a resp now).2 = none →
      (Auth.Login a resp now).1.sessionToken ≠ ""
      ∧ (Auth.Login a resp now).1.lastLogin = now)
    ∧ (∀ lr : Auth.LoginResponse, resp.statusCode = 200 → resp.body = some lr →
        lr.success = true →
        (Auth.Login a resp now).2 = none
        ∨ ((Auth.Login a resp now).2
            = some ("login successful but failed to get session cookie. Response headers: "
                ++ Auth.renderHeaders resp.allHeaders)
          ∧ ∀ nv ∈ resp.allHeaders,
              containsStr
                ("login successful but failed to get session cookie. Response headers: "
                  ++ Auth.renderHeaders resp.allHeaders)
                (nv.1 ++ ": " ++ nv.2) = true)) := by
  constructor
  · intro h
    by_cases hsc : resp.statusCode ≠ 200
    · rw [Auth.Login, if_pos hsc] at h
      simp at h
    · cases hb : resp.body with
      | none =>
        simp only [Auth.Login, if_neg hsc, hb] at h
        simp at h
      | some lr =>
        by_cases hf : lr.success = false
        · simp only [Auth.Login, if_neg hsc, hb, if_pos hf] at h
          simp at h
        · simp only [Auth.Login, if_neg hsc, hb, if_neg hf] at h ⊢
          exact loginExtract_none_fresh a resp now ha h
  · intro lr h200 hbody hsuc
    have hsc : ¬resp.statusCode ≠ 200 := by simp [h200]
    have hf : ¬lr.success = false := by simp [hsuc]
    simp only [Auth.Login, if_neg hsc, hbody, if_neg hf]
    rcases loginExtract_err_shape a resp now with hn | hs
    · exact Or.inl hn
    · refine Or.inr ⟨hs, ?_⟩
      intro nv hnv
      have h1 : (nv.1 ++ ": " ++ nv.2).data <:+: (Auth.renderHeaders resp.allHeaders).data :=
        renderHeaders_contains resp.allHeaders nv.1 nv.2 (by simpa using hnv)
      have h2 : (Auth.renderHeaders resp.allHeaders).data
          <:+: ("login successful but failed to get session cookie. Response headers: "
              ++ Auth.renderHeaders resp.allHeaders).data :=
        ⟨("login successful but failed to get session cookie. Response headers: ").data,
          [], by simp [String.data_append]⟩
      unfold containsStr
      exact decide_eq_true (h1.trans h2)

/-- Witness for C4 amended: with an empty stored token, a no-cookie
success response yields the header-listing error (exercised through the
disjunction), and a response carrying a `3x-ui` `Set-Cookie` header
yields `nil` with a fresh token and timestamp. -/
theorem login_fresh_session_amended_witness :
    ((Auth.Login ⟨"http://127.0.0.1:54321", "admin", "pw", "", "", 0⟩
        ⟨200, some ⟨true, "ok"⟩, [], [], [("Content-Type", "application/json")]⟩ 5).2 = none
      ∨ ((Auth.Login ⟨"http://127.0.0.1:54321", "admin", "pw", "", "", 0⟩
          ⟨200, some ⟨true, "ok"⟩, [], [], [("Content-Type", "application/json")]⟩ 5).2
          = some ("login successful but failed to get session cookie. Response headers: "
              ++ Auth.renderHeaders [("Content-Type", "application/json")])
        ∧ ∀ nv ∈ [("Content-Type", "application/json")],
            containsStr
              ("login successful but failed to get session cookie. Response headers: "
                ++ Auth.renderHeaders [("Content-Type", "application/json")])
              (nv.1 ++ ": " ++ nv.2) = true))
    ∧ ((Auth.Login ⟨"http://127.0.0.1:54321", "admin", "pw", "", "", 0⟩
        ⟨200, some ⟨true, "ok"⟩, ["3x-ui=tok123; Path=/"], [], []⟩ 5).1.sessionToken ≠ ""
      ∧ (Auth.Login ⟨"http://127.0.0.1:54321", "admin", "pw", "", "", 0⟩
        ⟨200, some ⟨true, "ok"⟩, ["3x-ui=tok123; Path=/"], [], []⟩ 5).1.lastLogin = 5) := by
  constructor
  · exact (login_fresh_session_amended ⟨"http://127.0.0.1:54321", "admin", "pw", "", "", 0⟩
      ⟨200, some ⟨true, "ok"⟩, [], [], [("Content-Type", "application/json")]⟩ 5 rfl).2
      ⟨true, "ok"⟩ rfl rfl rfl
  · exact (login_fresh_session_amended ⟨"http://127.0.0.1:54321", "admin", "pw", "", "", 0⟩
      ⟨200, some ⟨true, "ok"⟩, ["3x-ui=tok123; Path=/"], [], []⟩ 5 rfl).1 (by decide)

namespace Monitor

/-- Embeds `MemoryInfo` (Go `int64` fields as `Int`). -/
structure MemoryInfo where
  current : Int
  total : Int
deriving Repr, DecidableEq

/-- Embeds `SwapInfo`. -/
structure SwapInfo where
  current : Int
  total : Int
deriving Repr, DecidableEq

/-- Embeds `DiskInfo`. -/
structure DiskInfo where
  current : Int
  total : Int
deriving Repr, DecidableEq

/-- Embeds `NetIOInfo`. -/
structure NetIOInfo where
  up : Int
  down : Int
deriving Repr, DecidableEq

/-- Embeds `NetTraffic`. -/
structure NetTraffic where
  sent : Int
  recv : Int
deriving Repr, DecidableEq

/-- Embeds `XrayInfo`. -/
structure XrayInfo where
  state : String
  errorMsg : String
  version : String
deriving Repr, DecidableEq

/-- Embeds `PublicIPInfo`. -/
structure PublicIPInfo where
  ipv4 : String
  ipv6 : String
deriving Repr, DecidableEq

/-- Embeds `AppStats` (`Threads`/`Uptime` are Go `int`, `Memory` is
`int64`). -/
structure AppStats where
  threads : Int
  memory : Int
  uptime : Int
deriving Repr, DecidableEq

/-- Embeds `ServerStatusData` from `internal/monitor`.  Go `float64`
fields are copied verbatim by the conversion under study (no arithmetic
is ever performed on them), so they are carried by the exact rational
type `ℚ`; Go `int`/`int64` fields are carried as `Int`. -/
structure ServerStatusData where
  cpu : ℚ
  cpuCores : Int
  logicalPro : Int
  cpuSpeedMhz : ℚ
  memory : MemoryInfo
  swap : SwapInfo
  disk : DiskInfo
  uptime : Int
  loads : List ℚ
  tcpCount : Int
  udpCount : Int
  netIO : NetIOInfo
  netTraffic : NetTraffic
  publicIP : PublicIPInfo
  xray : XrayInfo
  appStats : AppStats
deriving Repr, DecidableEq

end Monitor

namespace Reportpb

/-- Wire message `MemoryInfo` (proto `int64`). -/
structure MemoryInfo where
  current : Int
  total : Int
deriving Repr, DecidableEq

/-- Wire message `SwapInfo`. -/
structure SwapInfo where
  current : Int
  total : Int
deriving Repr, DecidableEq

/-- Wire message `DiskInfo`. -/
structure DiskInfo where
  current : Int
  total : Int
deriving Repr, DecidableEq

/-- Wire message `NetIOInfo`. -/
structure NetIOInfo where
  up : Int
  down : Int
deriving Repr, DecidableEq

/-- Wire message `NetTraffic`. -/
structure NetTraffic where
  sent : Int
  recv : Int
deriving Repr, DecidableEq

/-- Wire message `XrayInfo`. -/
structure XrayInfo where
  state : String
  errorMsg : String
  version : String
deriving Repr, DecidableEq

/-- Wire message `PublicIPInfo`. -/
structure PublicIPInfo where
  ipv4 : String
  ipv6 : String
deriving Repr, DecidableEq

/-- Wire message `AppStats` (`threads`/`uptime` are proto `int32`). -/
structure AppStats where
  threads : Int
  memory : Int
  uptime : Int
deriving Repr, DecidableEq

/-- Wire message `ServerStatusData`; the `Int`-carried fields noted as
`int32` hold the value after Go's `int32(...)` truncation. -/
structure ServerStatusData where
  cpu : ℚ
  cpuCores : Int
  logicalPro : Int
  cpuSpeedMhz : ℚ
  memory : MemoryInfo
  swap : SwapInfo
  disk : DiskInfo
  uptime : Int
  loads : List ℚ
  tcpCount : Int
  udpCount : Int
  netIo : NetIOInfo
  netTraffic : NetTraffic
  publicIp : PublicIPInfo
  xray : XrayInfo
  appStats : AppStats
deriving Repr, DecidableEq

end Reportpb

namespace Report

/-- Go's `int32(x)` conversion of a 64-bit `int`: wrap into
`[-2^31, 2^31)`. -/
def toInt32 (x : Int) : Int :=
  (x + 2147483648) % 4294967296 - 2147483648

/-- Embeds `ConvertToProto`: `nil` maps to `nil`, otherwise every field
is copied, with Go `int` fields passed through `int32(...)`. -/
def ConvertToProto : Option Monitor.ServerStatusData → Option Reportpb.ServerStatusData
  | none => none
  | some data => some
    { cpu := data.cpu
      cpuCores := toInt32 data.cpuCores
      logicalPro := toInt32 data.logicalPro
      cpuSpeedMhz := data.cpuSpeedMhz
      memory := ⟨data.memory.current, data.memory.total⟩
      swap := ⟨data.swap.current, data.swap.total⟩
      disk := ⟨data.disk.current, data.disk.total⟩
      uptime := toInt32 data.uptime
      loads := data.loads
      tcpCount := toInt32 data.tcpCount
      udpCount := toInt32 data.udpCount
      netIo := ⟨data.netIO.up, data.netIO.down⟩
      netTraffic := ⟨data.netTraffic.sent, data.netTraffic.recv⟩
      publicIp := ⟨data.publicIP.ipv4, data.publicIP.ipv6⟩
      xray := ⟨data.xray.state, data.xray.errorMsg, data.xray.version⟩
      appStats := ⟨toInt32 data.appStats.threads, data.appStats.memory,
        toInt32 data.appStats.uptime⟩ }

end Report

/-- `int32` truncation is the identity inside the `int32` range. -/
theorem toInt32_eq_self (x : Int) (h1 : -2147483648 ≤ x) (h2 : x < 2147483648) :
    Report.toInt32 x = x := by
  unfold Report.toInt32
  omega

/-- C7 counterexample: the claim fails as stated — a snapshot whose
`Uptime` (a Go `int`) is `2^31` reaches the wire as `-2^31` because
`ConvertToProto` passes `int`-typed fields through `int32(...)`. -/
theorem convert_to_proto_counterexample :
    (Report.ConvertToProto (some ⟨25.5, 4, 8, 2400, ⟨1073741824, 8589934592⟩, ⟨0, 0⟩,
        ⟨100, 200⟩, 2147483648, [], 10, 5, ⟨0, 0⟩, ⟨0, 0⟩, ⟨"", ""⟩, ⟨"", "", ""⟩,
        ⟨0, 0, 0⟩⟩)).map Reportpb.ServerStatusData.uptime = some (-2147483648)
    ∧ ((2147483648 : Int) = -2147483648 → False) := by
  constructor
  · rfl
  · decide

/-- C7 amended: for every non-nil snapshot, `ConvertToProto` yields a
message whose `float64`, `int64`, string and list fields are equal to
the source values, and whose Go-`int` fields are equal whenever the
source value lies in the `int32` range (they pass through `int32(...)`
truncation). -/
theorem convert_to_proto_preserves (d : Monitor.ServerStatusData) :
    ∃ p, Report.ConvertToProto (some d) = some p
      ∧ p.cpu = d.cpu
      ∧ p.cpuSpeedMhz = d.cpuSpeedMhz
      ∧ p.memory.current = d.memory.current ∧ p.memory.total = d.memory.total
      ∧ p.swap.current = d.swap.current ∧ p.swap.total = d.swap.total
      ∧ p.disk.current = d.disk.current ∧ p.disk.total = d.disk.total
      ∧ p.loads = d.loads
      ∧ p.netIo.up = d.netIO.up ∧ p.netIo.down = d.netIO.down
      ∧ p.netTraffic.sent = d.netTraffic.sent ∧ p.netTraffic.recv = d.netTraffic.recv
      ∧ p.publicIp.ipv4 = d.publicIP.ipv4 ∧ p.publicIp.ipv6 = d.publicIP.ipv6
      ∧ p.xray.state = d.xray.state ∧ p.xray.errorMsg = d.xray.errorMsg
      ∧ p.xray.version = d.xray.version
      ∧ p.appStats.memory = d.appStats.memory
      ∧ (-2147483648 ≤ d.cpuCores → d.cpuCores < 2147483648 →
          p.cpuCores = d.cpuCores)
      ∧ (-2147483648 ≤ d.logicalPro → d.logicalPro < 2147483648 →
          p.logicalPro = d.logicalPro)
      ∧ (-2147483648 ≤ d.uptime → d.uptime < 2147483648 → p.uptime = d.uptime)
      ∧ (-2147483648 ≤ d.tcpCount → d.tcpCount < 2147483648 →
          p.tcpCount = d.tcpCount)
      ∧ (-2147483648 ≤ d.udpCount → d.udpCount < 2147483648 →
          p.udpCount = d.udpCount)
      ∧ (-2147483648 ≤ d.appStats.threads → d.appStats.threads < 2147483648 →
          p.appStats.threads = d.appStats.threads)
      ∧ (-2147483648 ≤ d.appStats.uptime → d.appStats.uptime < 2147483648 →
          p.appStats.uptime = d.appStats.uptime) := by
  refine ⟨_, rfl, rfl, rfl, rfl, rfl, rfl, rfl, rfl, rfl, rfl, rfl, rfl, rfl, rfl,
    rfl, rfl, rfl, rfl, rfl, rfl, ?_, ?_, ?_, ?_, ?_, ?_, ?_⟩ <;>
    exact fun h1 h2 => toInt32_eq_self _ h1 h2

/-- The populated snapshot used by the specification's round-trip
example: CPU 25.5, memory 1073741824 of 8589934592. -/
def specSnapshot : Monitor.ServerStatusData :=
  ⟨25.5, 4, 8, 2400, ⟨1073741824, 8589934592⟩, ⟨0, 1024⟩, ⟨100, 200⟩, 3600,
   [0.5, 0.25, 0.125], 10, 5, ⟨1000, 2000⟩, ⟨300, 400⟩, ⟨"203.0.113.7", "2001:db8::1"⟩,
   ⟨"running", "", "1.8.4"⟩, ⟨12, 52428800, 7200⟩⟩

/-- Witness for C7 amended at the spec's example snapshot: the CPU and
memory figures survive, and the in-range `int` fields survive. -/
theorem convert_to_proto_preserves_witness :
    ∃ p, Report.ConvertToProto (some specSnapshot) = some p
      ∧ p.cpu = specSnapshot.cpu
      ∧ p.memory.current = specSnapshot.memory.current
      ∧ p.memory.total = specSnapshot.memory.total
      ∧ p.uptime = specSnapshot.uptime := by
  obtain ⟨p, hp, hcpu, hspd, hmc, hmt, hsc, hst, hdc, hdt, hlds, hup, hdn, hsent,
    hrecv, h4, h6, hxs, hxe, hxv, ham, hcc, hlp, hupt, htcp, hudp, hth, hau⟩ :=
    convert_to_proto_preserves specSnapshot
  exact ⟨p, hp, hcpu, hmc, hmt, hupt (by decide) (by decide)⟩
